import Mathlib

/-!
# Verification of the mini-lang interpreter (lexer, parser, evaluator, builtins)

Shallow embedding of the Python sources `interpreter/lexer.py`,
`interpreter/parser.py`, `interpreter/evaluation.py` and
`interpreter/builtins.py`.

Modelling conventions:
* Python machine integers are arbitrary precision, so they are `Int`.
* Python floats are modelled exactly by `PyFloat` (a canonical rational);
  every float arising in the claims (`6 / 3 = 2.0`) is exactly
  representable in IEEE double, so the exact model agrees with the source
  on all inputs considered here.
* A value stack is a `List Value` with the *top at the end* of the list,
  matching Python `list.append` / `list.pop`.
* A Python dict used as a scope is modelled as an association list where
  insertion prepends; lookup takes the first (most recent) binding, which
  is observationally the same as dict overwrite-and-lookup.
* Python exceptions are explicit: `Err` distinguishes the interpreter's own
  `LexerError` / `ParserError` / `RunTimeError` from native Python
  exceptions (`TypeError`, `IndexError`, `ZeroDivisionError`, `ValueError`)
  that the source can also raise.
* Unbounded recursion (through scope bindings and quotation running) is
  made total with a fuel parameter.  Fuel is consumed exactly once per
  identifier resolution (`visit_identifier` entry), the only source of
  non-structural recursion in the evaluator; `none` means the fuel ran
  out, the embedding's stand-in for a run that has not terminated yet.
-/

/-- Euclid's algorithm with explicit fuel, so that it reduces inside the
    kernel (`Nat.gcd` is well-founded and does not).  `gcdFuel (a+1) a b`
    always has enough fuel because the first argument strictly decreases. -/
def gcdFuel : Nat → Nat → Nat → Nat
  | 0, _, b => b
  | fuel + 1, a, b => if a = 0 then b else gcdFuel fuel (b % a) a

/-- Greatest common divisor (kernel-computable). -/
def natGcd (a b : Nat) : Nat := gcdFuel (a + 1) a b

/-- Exact model of a Python float: a rational in canonical form
    (denominator positive, fraction reduced).  Exact arithmetic agrees
    with IEEE double arithmetic on all values arising in the claims
    (small integers and their exact quotients). -/
structure PyFloat where
  num : Int
  den : Nat
deriving DecidableEq

/-- Build a canonical `PyFloat` from a fraction `n / d` with `d ≠ 0`. -/
def PyFloat.mk' (n d : Int) : PyFloat :=
  let sign : Int := if d < 0 then -1 else 1
  let n1 := sign * n
  let d1 := (sign * d).toNat
  let g := natGcd n1.natAbs d1
  ⟨n1 / g, d1 / g⟩

/-- Embed an integer as a float (Python int → float promotion). -/
def PyFloat.ofInt (n : Int) : PyFloat := ⟨n, 1⟩

/-- Float addition. -/
def PyFloat.add (a b : PyFloat) : PyFloat :=
  .mk' (a.num * b.den + b.num * a.den) (a.den * b.den)

/-- Float subtraction. -/
def PyFloat.sub (a b : PyFloat) : PyFloat :=
  .mk' (a.num * b.den - b.num * a.den) (a.den * b.den)

/-- Float multiplication. -/
def PyFloat.mul (a b : PyFloat) : PyFloat :=
  .mk' (a.num * b.num) (a.den * b.den)

/-- Float division (caller checks for a zero divisor). -/
def PyFloat.div (a b : PyFloat) : PyFloat :=
  .mk' (a.num * b.den) (a.den * b.num)

/-- `True` iff the float is (numerically) zero. -/
def PyFloat.isZero (a : PyFloat) : Bool := a.num = 0

/-- Floor of a float (used by Python float `%`). -/
def PyFloat.floorF (a : PyFloat) : Int := Int.fdiv a.num a.den

/-- Python float modulo `b - a * ⌊b / a⌋`. -/
def PyFloat.modF (b a : PyFloat) : PyFloat :=
  b.sub (a.mul (.ofInt ((b.div a).floorF)))

/-- Payload of an AST `Literal` node: `int`, `float` or `str` content
    (from `Literal.content` in parser.py). -/
inductive Lit where
  | i (n : Int)
  | f (q : PyFloat)
  | s (str : String)

mutual
/-- `parser.Expr`: an ordered sequence of atoms. -/
inductive Expr where
  | nil : Expr
  | cons (a : Atom) (rest : Expr) : Expr

/-- One atom of an expression: `Literal`, `Identifier`, `Quot` or `List`
    nodes of parser.py. -/
inductive Atom where
  | lit (l : Lit)
  | ident (name : String)
  | quot (e : Expr)
  | list (e : Expr)
end

/-- A statement of a `Program`: `Decl(word, expr)` or a bare `Expr`. -/
inductive Stmt where
  | decl (name : String) (e : Expr)
  | expr (e : Expr)

/-- Build an `Expr` from a list of atoms (convenience for concrete tests). -/
def exprOfList : List Atom → Expr
  | [] => Expr.nil
  | a :: rest => Expr.cons a (exprOfList rest)

/-- Runtime values: Python `int`, `float`, `str`, a `Quot` AST node pushed
    by `visit_quot`, and a Python list pushed by `visit_list` (a Sequence). -/
inductive Value where
  | int (n : Int)
  | float (q : PyFloat)
  | str (s : String)
  | quot (e : Expr)
  | seq (l : List Value)

/-- `True` iff the value is a `Quot` node (`isinstance(quot, Quot)`). -/
def isQuotVal : Value → Bool
  | .quot _ => true
  | _ => false

/-- The Python `type(...)` name of a value, used in error messages. -/
def pyTypeName : Value → String
  | .int _ => "int"
  | .float _ => "float"
  | .str _ => "str"
  | .quot _ => "Quot"
  | .seq _ => "list"

/-- Exceptions the interpreter can raise.  `lex`, `parse` and `rt` are the
    interpreter's own `LexerError`, `ParserError` and `RunTimeError`;
    the `py*` constructors are native Python exceptions that also escape
    from the source code. -/
inductive Err where
  | lex (msg : String)
  | parse (msg : String)
  | rt (msg : String)
  | pyTypeError (msg : String)
  | pyIndexError (msg : String)
  | pyZeroDivisionError (msg : String)
  | pyValueError (msg : String)

/-- `True` iff an error is the evaluator's own `RunTimeError` kind. -/
def Err.isRt : Err → Bool
  | .rt _ => true
  | _ => false

/-- Python `b + a` on the value kinds that occur at runtime. -/
def pyAdd : Value → Value → Except Err Value
  | .int b, .int a => .ok (.int (b + a))
  | .int b, .float a => .ok (.float ((PyFloat.ofInt b).add a))
  | .float b, .int a => .ok (.float (b.add (PyFloat.ofInt a)))
  | .float b, .float a => .ok (.float (b.add a))
  | .str b, .str a => .ok (.str (b ++ a))
  | .seq b, .seq a => .ok (.seq (b ++ a))
  | b, a => .error (.pyTypeError ("unsupported operand types for +: " ++ pyTypeName b ++ " and " ++ pyTypeName a))

/-- Python `b - a`. -/
def pySub : Value → Value → Except Err Value
  | .int b, .int a => .ok (.int (b - a))
  | .int b, .float a => .ok (.float ((PyFloat.ofInt b).sub a))
  | .float b, .int a => .ok (.float (b.sub (PyFloat.ofInt a)))
  | .float b, .float a => .ok (.float (b.sub a))
  | b, a => .error (.pyTypeError ("unsupported operand types for -: " ++ pyTypeName b ++ " and " ++ pyTypeName a))

/-- Repeat a string `n` times (Python `s * n`, empty for `n ≤ 0`). -/
def strRepeat (s : String) (n : Int) : String :=
  String.join (List.replicate n.toNat s)

/-- Repeat a list `n` times (Python `l * n`, empty for `n ≤ 0`). -/
def listRepeat (l : List Value) (n : Int) : List Value :=
  List.flatten (List.replicate n.toNat l)

/-- Python `b * a`. -/
def pyMul : Value → Value → Except Err Value
  | .int b, .int a => .ok (.int (b * a))
  | .int b, .float a => .ok (.float ((PyFloat.ofInt b).mul a))
  | .float b, .int a => .ok (.float (b.mul (PyFloat.ofInt a)))
  | .float b, .float a => .ok (.float (b.mul a))
  | .str s, .int n => .ok (.str (strRepeat s n))
  | .int n, .str s => .ok (.str (strRepeat s n))
  | .seq l, .int n => .ok (.seq (listRepeat l n))
  | .int n, .seq l => .ok (.seq (listRepeat l n))
  | b, a => .error (.pyTypeError ("unsupported operand types for *: " ++ pyTypeName b ++ " and " ++ pyTypeName a))

/-- Python true division `b / a`: on numbers it always produces a float
    (here: an exact rational); dividing by numeric zero raises
    `ZeroDivisionError`. -/
def pyDiv : Value → Value → Except Err Value
  | .int b, .int a =>
      if a = 0 then .error (.pyZeroDivisionError "division by zero")
      else .ok (.float ((PyFloat.ofInt b).div (PyFloat.ofInt a)))
  | .int b, .float a =>
      if a.isZero then .error (.pyZeroDivisionError "float division by zero")
      else .ok (.float ((PyFloat.ofInt b).div a))
  | .float b, .int a =>
      if a = 0 then .error (.pyZeroDivisionError "float division by zero")
      else .ok (.float (b.div (PyFloat.ofInt a)))
  | .float b, .float a =>
      if a.isZero then .error (.pyZeroDivisionError "float division by zero")
      else .ok (.float (b.div a))
  | b, a => .error (.pyTypeError ("unsupported operand types for /: " ++ pyTypeName b ++ " and " ++ pyTypeName a))

/-- Python `b % a` (floor-signed modulo on ints; string formatting, which
    cannot succeed on the value kinds in play without format specifiers
    being matched, is collapsed to its `TypeError` outcome). -/
def pyMod : Value → Value → Except Err Value
  | .int b, .int a =>
      if a = 0 then .error (.pyZeroDivisionError "integer division or modulo by zero")
      else .ok (.int (Int.fmod b a))
  | .int b, .float a =>
      if a.isZero then .error (.pyZeroDivisionError "float modulo")
      else .ok (.float ((PyFloat.ofInt b).modF a))
  | .float b, .int a =>
      if a = 0 then .error (.pyZeroDivisionError "float modulo")
      else .ok (.float (b.modF (PyFloat.ofInt a)))
  | .float b, .float a =>
      if a.isZero then .error (.pyZeroDivisionError "float modulo")
      else .ok (.float (b.modF a))
  | b, a => .error (.pyTypeError ("unsupported operand types for %: " ++ pyTypeName b ++ " and " ++ pyTypeName a))

/-- `stack.pop()`: remove and return the last element (stack top). -/
def popTop (st : List Value) : Option (List Value × Value) :=
  match st.getLast? with
  | none => none
  | some a => some (st.dropLast, a)

/-- Outcome of a pure builtin body acting on the stack: the (possibly
    partially mutated) stack, and the exception raised if any. -/
abbrev StackRes := List Value × Option Err

/-- Shared shape of the binary arithmetic builtins: `a = pop; b = pop;
    push (b OP a)`.  On an exception the pops have already happened. -/
def binOp (op : Value → Value → Except Err Value) (st : List Value) : StackRes :=
  match popTop st with
  | none => (st, some (.pyIndexError "pop from empty list"))
  | some (st1, a) =>
    match popTop st1 with
    | none => (st1, some (.pyIndexError "pop from empty list"))
    | some (st2, b) =>
      match op b a with
      | .ok v => (st2 ++ [v], none)
      | .error e => (st2, some e)

/-- builtins.stack_plus body. -/
def stack_plus (st : List Value) : StackRes := binOp pyAdd st

/-- builtins.stack_minus body. -/
def stack_minus (st : List Value) : StackRes := binOp pySub st

/-- builtins.stack_multiply body. -/
def stack_multiply (st : List Value) : StackRes := binOp pyMul st

/-- builtins.stack_divide body. -/
def stack_divide (st : List Value) : StackRes := binOp pyDiv st

/-- builtins.stack_mod body. -/
def stack_mod (st : List Value) : StackRes := binOp pyMod st

/-- builtins.dup body: `stack.append(stack[-1])`. -/
def dupOp (st : List Value) : StackRes :=
  match st.getLast? with
  | none => (st, some (.pyIndexError "list index out of range"))
  | some a => (st ++ [a], none)

/-- builtins.print_stack body: printing only, no stack mutation. -/
def print_stack (st : List Value) : StackRes := (st, none)

/-- builtins.clear_stack body: `runtime.stack = []`. -/
def clear_stack (_ : List Value) : StackRes := ([], none)

/-- builtins.print_top body: reads `stack[-1]`, no mutation. -/
def print_top (st : List Value) : StackRes :=
  match st.getLast? with
  | none => (st, some (.pyIndexError "list index out of range"))
  | some _ => (st, none)

/-- builtins.drop_top body: `stack.pop()`. -/
def drop_top (st : List Value) : StackRes :=
  match popTop st with
  | none => (st, some (.pyIndexError "pop from empty list"))
  | some (st1, _) => (st1, none)

/-- builtins.swap_two body: `a = pop; b = pop; push a; push b`. -/
def swap_two (st : List Value) : StackRes :=
  match popTop st with
  | none => (st, some (.pyIndexError "pop from empty list"))
  | some (st1, a) =>
    match popTop st1 with
    | none => (st1, some (.pyIndexError "pop from empty list"))
    | some (st2, b) => (st2 ++ [a, b], none)

/-- builtins.rot_three body: `a = pop; b = pop; c = pop; push b; push a;
    push c`. -/
def rot_three (st : List Value) : StackRes :=
  match popTop st with
  | none => (st, some (.pyIndexError "pop from empty list"))
  | some (st1, a) =>
    match popTop st1 with
    | none => (st1, some (.pyIndexError "pop from empty list"))
    | some (st2, b) =>
      match popTop st2 with
      | none => (st2, some (.pyIndexError "pop from empty list"))
      | some (st3, c) => (st3 ++ [b, a, c], none)

/-- The behaviour of a builtin once its arity check has passed: either a
    pure stack transformation, or `run_quot` which re-enters the
    evaluator (`runtime.visit_expr`). -/
inductive BuiltinOp where
  | onStack (op : List Value → StackRes)
  | runQuot

/-- One entry of the builtin registry: the `@stack_args(n)` arity together
    with the wrapped operation. -/
structure BuiltinEntry where
  arity : Nat
  op : BuiltinOp

/-- builtins.BUILTIN_SCOPE: the fixed name → operation registry. -/
def BUILTIN_SCOPE : List (String × BuiltinEntry) :=
  [ ("+", ⟨2, .onStack stack_plus⟩)
  , ("-", ⟨2, .onStack stack_minus⟩)
  , ("*", ⟨2, .onStack stack_multiply⟩)
  , ("/", ⟨2, .onStack stack_divide⟩)
  , ("%", ⟨2, .onStack stack_mod⟩)
  , ("dup", ⟨1, .onStack dupOp⟩)
  , ("\\", ⟨1, .runQuot⟩)
  , ("stack", ⟨0, .onStack print_stack⟩)
  , ("clear", ⟨0, .onStack clear_stack⟩)
  , (".", ⟨1, .onStack print_top⟩)
  , ("drop", ⟨1, .onStack drop_top⟩)
  , ("swap", ⟨2, .onStack swap_two⟩)
  , ("rot", ⟨3, .onStack rot_three⟩)
  ]

/-- A frame's local scope: name → stored (unevaluated) expression.
    `visit_decl` inserts by prepending; lookup takes the most recent
    binding, matching Python dict overwrite semantics. -/
abbrev Scope := List (String × Expr)

/-- One `RunTime` frame: operand stack, local scope and the per-frame
    recursion counter (`recursion_depth`, ceiling 100). -/
structure Frame where
  stack : List Value
  scope : Scope
  depth : Nat

/-- `RunTime.max_recursion_depth`. -/
def maxRecursionDepth : Nat := 100

/-- Result of running a piece of code in a frame: `none` when the fuel ran
    out (the run has not terminated within the budget); otherwise the
    final frame together with the exception raised, if any.  An exception
    carries the frame state at the moment it escapes, because Python
    mutations before the raise persist. -/
abbrev Res := Option (Frame × Option Err)

/-- Evaluation of an expression at the next-smaller fuel level; `none` is
    fuel exhaustion at identifier-resolution time. -/
abbrev DeepFn := List Scope → Frame → Expr → Res

/-- Walk the ancestor chain (immediate parent first), returning the first
    local scope that binds `name` — the `while cur_runtime.parent` loop of
    `visit_identifier`. -/
def ancFind : List Scope → String → Option Expr
  | [], _ => none
  | s :: rest, name =>
    match List.lookup name s with
    | some e => some e
    | none => ancFind rest name

/-- The common tail of the three successful branches of
    `visit_identifier`: on a normal return decrement
    `self.recursion_depth`; an exception propagates without the
    decrement; fuel exhaustion propagates as such. -/
def retDec : Res → Res
  | none => none
  | some (g, some e) => some (g, some e)
  | some (g, none) => some ({g with depth := g.depth - 1}, none)

/-- One builtin invocation `func(runtime)`: the `stack_args` arity check
    first (raising `RunTimeError` without touching the stack when it
    fails), then the native body.  `run_quot` pops the top, demands a
    `Quot` and runs its expression in the current frame via `deep`. -/
def applyBuiltinGo (deep : DeepFn) (anc : List Scope) (f : Frame) (entry : BuiltinEntry) : Res :=
  if f.stack.length < entry.arity then
    some (f, some (.rt ("Expected " ++ toString entry.arity ++ " items on stack but got " ++ toString f.stack.length)))
  else
    match entry.op with
    | .onStack op =>
      match op f.stack with
      | (st, e) => some ({f with stack := st}, e)
    | .runQuot =>
      match popTop f.stack with
      | none => some (f, some (.pyIndexError "pop from empty list"))
      | some (st1, .quot e) => deep anc {f with stack := st1} e
      | some (st1, v) =>
        some ({f with stack := st1}, some (.pyTypeError ("Expected quotation but got " ++ pyTypeName v)))

mutual
/-- `RunTime.visit_expr`: evaluate the atoms left to right, stopping at
    the first exception or fuel exhaustion. -/
def goExpr (d : Option DeepFn) (anc : List Scope) (f : Frame) : Expr → Res
  | .nil => some (f, none)
  | .cons a rest =>
    match goAtom d anc f a with
    | none => none
    | some (g, some e) => some (g, some e)
    | some (g, none) => goExpr d anc g rest

/-- Evaluation of a single atom: `visit_literal`, `visit_quot`,
    `visit_list` and `visit_identifier` of evaluation.py.  `d` is the
    evaluator at the next-smaller fuel level (`none` when the fuel is
    spent); it is consulted exactly once per identifier resolution. -/
def goAtom (d : Option DeepFn) (anc : List Scope) (f : Frame) : Atom → Res
  | .lit l =>
    some ({f with stack := f.stack ++ [match l with
      | .i n => Value.int n
      | .f q => Value.float q
      | .s s => Value.str s]}, none)
  | .quot e => some ({f with stack := f.stack ++ [Value.quot e]}, none)
  | .list e =>
    match goExpr d (f.scope :: anc) ⟨[], [], 0⟩ e with
    | none => none
    | some (_, some er) => some (f, some er)
    | some (c, none) => some ({f with stack := f.stack ++ [Value.seq c.stack]}, none)
  | .ident name =>
    match d with
    | none => none
    | some deep =>
      if maxRecursionDepth ≤ f.depth then
        some ({f with depth := 0}, some (.rt "Maximum recursion depth reached"))
      else
        let f1 : Frame := {f with depth := f.depth + 1}
        match List.lookup name f.scope with
        | some e => retDec (deep anc f1 e)
        | none =>
          match List.lookup name BUILTIN_SCOPE with
          | some entry => retDec (applyBuiltinGo deep anc f1 entry)
          | none =>
            match ancFind anc name with
            | some e => retDec (deep anc f1 e)
            | none => some (f1, some (.rt ("Unknown identifier " ++ name)))
end

/-- Expression evaluation with a fuel budget: one unit per identifier
    resolution. -/
def evalExprF : Nat → DeepFn
  | 0 => goExpr none
  | n + 1 => goExpr (some (evalExprF n))

/-- Atom evaluation with a fuel budget (same convention). -/
def evalAtomF (fuel : Nat) (anc : List Scope) (f : Frame) (a : Atom) : Res :=
  match fuel with
  | 0 => goAtom none anc f a
  | n + 1 => goAtom (some (evalExprF n)) anc f a

/-- `RunTime.visit_program` over the parsed statement list: `visit_decl`
    stores the unevaluated expression in the current scope; an `Expr`
    statement is evaluated and its effects persist to the next one. -/
def evalStmtsF (fuel : Nat) (anc : List Scope) (f : Frame) : List Stmt → Res
  | [] => some (f, none)
  | .decl name e :: rest => evalStmtsF fuel anc {f with scope := (name, e) :: f.scope} rest
  | .expr e :: rest =>
    match evalExprF fuel anc f e with
    | none => none
    | some (g, some er) => some (g, some er)
    | some (g, none) => evalStmtsF fuel anc g rest

/-- `RunTime().evaluate(program)` on a fresh root frame. -/
def evaluateF (fuel : Nat) (prog : List Stmt) : Res :=
  evalStmtsF fuel [] ⟨[], [], 0⟩ prog

/-! ## Lexer (lexer.py)

The `Lexer` object state is the immutable source plus the cursor `pos`;
`current_char` is `source[pos]` when in range and `None` otherwise, which
is exactly `List.get?`.  Character-level loops carry fuel (any fuel at
least the source length is enough; fuel plays no role in the claims about
the lexer). -/

/-- Token tags (`lexer.TokenType`). -/
inductive TokenType where
  | LITERAL
  | IDENTIFIER
  | NEWLINE
  | PARENTHESIS_L
  | PARENTHESIS_R
  | ASSIGNMENT
deriving DecidableEq

/-- A token's value payload: an `int`, `float` or `str` (single characters
    are one-character strings, as in Python). -/
inductive TokenVal where
  | vInt (n : Int)
  | vFloat (q : PyFloat)
  | vStr (s : String)
deriving DecidableEq

/-- `lexer.Token`. -/
structure Token where
  type : TokenType
  value : TokenVal
deriving DecidableEq

/-- `NON_IDENTIFIER_SYMBOLS` = " :()[]{}\"'\n". -/
def nonIdentifierSymbols : List Char :=
  [' ', ':', '(', ')', '[', ']', '{', '}', '"', '\'', '\n']

/-- `OPERATOR_SYMBOLS` = "+-*/%=". -/
def operatorSymbols : List Char := ['+', '-', '*', '/', '%', '=']

/-- `self.current_char`: `source[pos]` if in range, else `None`. -/
def lexCur (src : List Char) (pos : Nat) : Option Char := src.get? pos

/-- The space-skipping loop at the top of `next_token`. -/
def skipSpaces : Nat → List Char → Nat → Option Nat
  | 0, _, _ => none
  | fuel + 1, src, p =>
    match lexCur src p with
    | some ' ' => skipSpaces fuel src (p + 1)
    | _ => some p

/-- Digit-run consumption in `_get_number_token`, returning the digits
    read and the new position. -/
def takeDigits : Nat → List Char → Nat → String → Option (String × Nat)
  | 0, _, _, _ => none
  | fuel + 1, src, p, acc =>
    match lexCur src p with
    | some c => if c.isDigit then takeDigits fuel src (p + 1) (acc.push c) else some (acc, p)
    | none => some (acc, p)

/-- Numeric value of a digit character. -/
def digitVal (c : Char) : Nat := c.toNat - '0'.toNat

/-- `int(digits)` for a run of decimal digits. -/
def digitsToNat (s : String) : Nat :=
  s.data.foldl (fun acc c => acc * 10 + digitVal c) 0

/-- `_get_number_token`: digits, then optionally `.` and more digits; the
    result is an `int` literal or a `float` literal. -/
def numberToken (fuel : Nat) (src : List Char) (p : Nat) : Option (Token × Nat) :=
  match takeDigits fuel src p "" with
  | none => none
  | some (ds, p1) =>
    match lexCur src p1 with
    | some '.' =>
      match takeDigits fuel src (p1 + 1) "" with
      | none => none
      | some (fs, p2) =>
        some (⟨.LITERAL, .vFloat (PyFloat.mk' (digitsToNat ds * 10 ^ fs.length + digitsToNat fs) (10 ^ fs.length))⟩, p2)
    | _ => some (⟨.LITERAL, .vInt (digitsToNat ds)⟩, p1)

/-- The single-letter escape table of `_get_string_token`. -/
def escapeMap : Char → Option Char
  | 'n' => some '\n'
  | 't' => some '\t'
  | 'r' => some '\r'
  | 'b' => some '\x08'
  | 'f' => some '\x0c'
  | '\\' => some '\\'
  | '"' => some '"'
  | '\'' => some '\''
  | _ => none

/-- Python `c.upper() in "0123456789ABCDEF"`. -/
def isHexDigitPy (c : Char) : Bool :=
  c.isDigit || ('a' ≤ c && c ≤ 'f') || ('A' ≤ c && c ≤ 'F')

/-- Numeric value of a hex digit. -/
def hexVal (c : Char) : Nat :=
  if c.isDigit then c.toNat - '0'.toNat
  else if 'a' ≤ c && c ≤ 'f' then c.toNat - 'a'.toNat + 10
  else c.toNat - 'A'.toNat + 10

/-- `_read_hex_digits(count)`: exactly `count` hex digits or a
    `LexerError`. -/
def readHexDigits : Nat → List Char → Nat → Nat → Except Err (Nat × Nat)
  | 0, _, p, acc => .ok (acc, p)
  | count + 1, src, p, acc =>
    match lexCur src p with
    | some c =>
      if isHexDigitPy c then readHexDigits count src (p + 1) (acc * 16 + hexVal c)
      else .error (.lex ("Token error: Expected " ++ toString (count + 1) ++ " hex digits after escape sequence"))
    | none => .error (.lex ("Token error: Expected " ++ toString (count + 1) ++ " hex digits after escape sequence"))

/-- Python `chr(n)`: a character, or `ValueError` outside the Unicode
    range (surrogates are valid `chr` arguments in Python but cannot
    appear here; they are outside what escape parsing produces in the
    claims and mapped to the same error for definiteness). -/
def pyChr (n : Nat) : Except Err Char :=
  if h : n.isValidChar then .ok (Char.ofNatAux n h)
  else .error (.pyValueError "chr() arg not in range(0x110000)")

/-- The character-consuming loop of `_get_string_token` plus the final
    `consume(quot)`; `quot` is the opening quote character. -/
def strLoop : Nat → List Char → Nat → Char → String → Option (Except Err (String × Nat))
  | 0, _, _, _, _ => none
  | fuel + 1, src, p, quotc, acc =>
    match lexCur src p with
    | none => some (.error (.lex "Token error: Unexpected EOF"))
    | some c =>
      if c = quotc then some (.ok (acc, p + 1))
      else if c = '\n' then some (.error (.lex "Token error: Unexpected End of Line"))
      else if c = '\\' then
        match lexCur src (p + 1) with
        | none => some (.error (.lex "Token error: Unexpected EOF"))
        | some e =>
          match escapeMap e with
          | some r => strLoop fuel src (p + 2) quotc (acc.push r)
          | none =>
            if e = 'x' then
              match readHexDigits 2 src (p + 2) 0 with
              | .error er => some (.error er)
              | .ok (n, p2) =>
                match pyChr n with
                | .error er => some (.error er)
                | .ok ch => strLoop fuel src p2 quotc (acc.push ch)
            else if e = 'u' then
              match readHexDigits 4 src (p + 2) 0 with
              | .error er => some (.error er)
              | .ok (n, p2) =>
                match pyChr n with
                | .error er => some (.error er)
                | .ok ch => strLoop fuel src p2 quotc (acc.push ch)
            else if e = 'U' then
              match readHexDigits 8 src (p + 2) 0 with
              | .error er => some (.error er)
              | .ok (n, p2) =>
                match pyChr n with
                | .error er => some (.error er)
                | .ok ch => strLoop fuel src p2 quotc (acc.push ch)
            else strLoop fuel src (p + 2) quotc ((acc.push '\\').push e)
      else strLoop fuel src (p + 1) quotc (acc.push c)

/-- The identifier-run loop of `_get_identifier_token`. -/
def identLoop : Nat → List Char → Nat → String → Option (String × Nat)
  | 0, _, _, _ => none
  | fuel + 1, src, p, acc =>
    match lexCur src p with
    | some c =>
      if c ∉ nonIdentifierSymbols ∧ c ∉ operatorSymbols then identLoop fuel src (p + 1) (acc.push c)
      else some (acc, p)
    | none => some (acc, p)

/-- `next_token`: skip spaces, then dispatch on the current character in
    source order.  When the space skip runs off the end of the input,
    `self.current_char` is `None` and the subsequent membership test
    `self.current_char in "([{"` raises a native `TypeError` — modelled
    as such. -/
def nextToken (fuel : Nat) (src : List Char) (p : Nat) : Option (Except Err (Token × Nat)) :=
  match skipSpaces fuel src p with
  | none => none
  | some p1 =>
    match lexCur src p1 with
    | none => some (.error (.pyTypeError "in <string> requires string as left operand, not NoneType"))
    | some c =>
      if c = '\n' then some (.ok (⟨.NEWLINE, .vStr "\n"⟩, p1 + 1))
      else if c ∈ ['(', '[', '{'] then some (.ok (⟨.PARENTHESIS_L, .vStr (String.singleton c)⟩, p1 + 1))
      else if c ∈ [')', ']', '}'] then some (.ok (⟨.PARENTHESIS_R, .vStr (String.singleton c)⟩, p1 + 1))
      else if c = ':' then
        match lexCur src (p1 + 1) with
        | some '=' => some (.ok (⟨.ASSIGNMENT, .vStr ":="⟩, p1 + 2))
        | _ => some (.ok (⟨.IDENTIFIER, .vStr ":"⟩, p1 + 1))
      else if c.isDigit then
        match numberToken fuel src p1 with
        | none => none
        | some (t, p2) => some (.ok (t, p2))
      else if c = '\'' ∨ c = '"' then
        match strLoop fuel src (p1 + 1) c "" with
        | none => none
        | some (.error er) => some (.error er)
        | some (.ok (s, p2)) => some (.ok (⟨.LITERAL, .vStr s⟩, p2))
      else if c ∈ operatorSymbols then some (.ok (⟨.IDENTIFIER, .vStr (String.singleton c)⟩, p1 + 1))
      else
        match identLoop fuel src p1 "" with
        | none => none
        | some (s, p2) => some (.ok (⟨.IDENTIFIER, .vStr s⟩, p2))

/-- The `while self.current_char:` loop of `Lexer.parse`. -/
def tokenizeLoop : Nat → List Char → Nat → List Token → Option (Except Err (List Token))
  | 0, _, _, _ => none
  | fuel + 1, src, p, acc =>
    match lexCur src p with
    | none => some (.ok acc)
    | some _ =>
      match nextToken (fuel + 1) src p with
      | none => none
      | some (.error er) => some (.error er)
      | some (.ok (t, p1)) => tokenizeLoop fuel src p1 (acc ++ [t])

/-- `Lexer.parse(source)`: the initial `self.current_char =
    self.source[self.pos]` raises a native `IndexError` on an empty
    source; otherwise the token loop runs. -/
def tokenize (fuel : Nat) (source : String) : Option (Except Err (List Token)) :=
  let src := source.data
  if src.length = 0 then some (.error (.pyIndexError "string index out of range"))
  else tokenizeLoop fuel src 0 []

/-! ## Parser (parser.py)

The `Parser` object state is the fixed token list plus the cursor
`index`.  All parsing loops and recursive descents carry fuel: the
top-level statement loop of `_parse_program` never consumes a token when
`_parse_expression` immediately stops (a `Newline` or close-bracket at a
statement boundary), so its termination cannot be established — and
indeed is refuted below. -/

/-- `Parser.peek`. -/
def peekT (ts : List Token) (i : Nat) : Except Err Token :=
  match ts.get? i with
  | some t => .ok t
  | none => .error (.parse "Unexpected EOF")

/-- Display name of a token tag (for error messages). -/
def tokenTypeName : TokenType → String
  | .LITERAL => "TokenType.LITERAL"
  | .IDENTIFIER => "TokenType.IDENTIFIER"
  | .NEWLINE => "TokenType.NEWLINE"
  | .PARENTHESIS_L => "TokenType.PARENTHESIS_L"
  | .PARENTHESIS_R => "TokenType.PARENTHESIS_R"
  | .ASSIGNMENT => "TokenType.ASSIGNMENT"

/-- `Parser.consume`: check the current token's tag and advance. -/
def consumeT (ts : List Token) (i : Nat) (ty : TokenType) : Except Err (Token × Nat) :=
  match peekT ts i with
  | .error e => .error e
  | .ok t =>
    if t.type = ty then .ok (t, i + 1)
    else .error (.parse ("Expected " ++ tokenTypeName ty ++ " but got " ++ tokenTypeName t.type))

/-- The string payload of a token (identifier names; the lexer only ever
    stores strings in `IDENTIFIER` tokens). -/
def tokenValStr : TokenVal → String
  | .vStr s => s
  | .vInt n => toString n
  | .vFloat _ => "float"

/-- `parser.is_match`: structural bracket matching
    (`{'(' : ')', '[' : ']', '{' : '}'}`). -/
def isMatchBr (l r : String) : Bool :=
  (l = "(" ∧ r = ")") ∨ (l = "[" ∧ r = "]") ∨ (l = "\x7b" ∧ r = "\x7d")

/-- `Parser._is_declaration`: the statement is a declaration iff the
    second lookahead token exists and is `ASSIGNMENT`. -/
def isDeclaration (ts : List Token) (i : Nat) : Bool :=
  match ts.get? (i + 1) with
  | some t => t.type = TokenType.ASSIGNMENT
  | none => false

mutual
/-- `Parser._parse_expression`: atoms while the next token exists and is
    neither `NEWLINE` nor `PARENTHESIS_R`; those stopping tokens are not
    consumed. -/
def parseExprP : Nat → List Token → Nat → Option (Except Err (Expr × Nat))
  | 0, _, _ => none
  | fuel + 1, ts, i =>
    if i = ts.length then some (.ok (.nil, i))
    else
      match peekT ts i with
      | .error e => some (.error e)
      | .ok t =>
        if t.type = TokenType.NEWLINE ∨ t.type = TokenType.PARENTHESIS_R then some (.ok (.nil, i))
        else
          match parseAtomP fuel ts i with
          | none => none
          | some (.error e) => some (.error e)
          | some (.ok (a, j)) =>
            match parseExprP fuel ts j with
            | none => none
            | some (.error e) => some (.error e)
            | some (.ok (rest, k)) => some (.ok (.cons a rest, k))

/-- `Parser._parse_atom`. -/
def parseAtomP : Nat → List Token → Nat → Option (Except Err (Atom × Nat))
  | 0, _, _ => none
  | fuel + 1, ts, i =>
    match peekT ts i with
    | .error e => some (.error e)
    | .ok t =>
      if t.type = TokenType.LITERAL then
        some (.ok (.lit (match t.value with
          | .vInt n => .i n
          | .vFloat q => .f q
          | .vStr s => .s s), i + 1))
      else if t.type = TokenType.IDENTIFIER then
        some (.ok (.ident (tokenValStr t.value), i + 1))
      else if t.type = TokenType.PARENTHESIS_L then
        let left := tokenValStr t.value
        match parseExprP fuel ts (i + 1) with
        | none => none
        | some (.error e) => some (.error e)
        | some (.ok (e, j)) =>
          match consumeT ts j TokenType.PARENTHESIS_R with
          | .error er => some (.error er)
          | .ok (rt, k) =>
            let right := tokenValStr rt.value
            if ¬ isMatchBr left right then
              some (.error (.parse ("Unmatched parentheses: " ++ left ++ " and " ++ right)))
            else if left = "[" then some (.ok (.quot e, k))
            else if left = "\x7b" then some (.ok (.list e, k))
            else some (.error (.parse ("Unimplemented parentheses: " ++ left ++ right)))
      else some (.error (.parse "Unexpected token"))
end

/-- `Parser._parse_declaration`: `IDENT := expr`. -/
def parseDeclP (fuel : Nat) (ts : List Token) (i : Nat) : Option (Except Err (Stmt × Nat)) :=
  match consumeT ts i TokenType.IDENTIFIER with
  | .error e => some (.error e)
  | .ok (nameTok, j) =>
    match consumeT ts j TokenType.ASSIGNMENT with
    | .error e => some (.error e)
    | .ok (_, k) =>
      match parseExprP fuel ts k with
      | none => none
      | some (.error e) => some (.error e)
      | some (.ok (e, m)) => some (.ok (.decl (tokenValStr nameTok.value) e, m))

/-- `Parser._parse_program`: the `while not self.eof()` statement loop,
    accumulating statements. -/
def parseProgLoop : Nat → List Token → Nat → List Stmt → Option (Except Err (List Stmt × Nat))
  | 0, _, _, _ => none
  | fuel + 1, ts, i, acc =>
    if i = ts.length then some (.ok (acc, i))
    else if isDeclaration ts i then
      match parseDeclP fuel ts i with
      | none => none
      | some (.error e) => some (.error e)
      | some (.ok (st, j)) => parseProgLoop fuel ts j (acc ++ [st])
    else
      match parseExprP fuel ts i with
      | none => none
      | some (.error e) => some (.error e)
      | some (.ok (e, j)) => parseProgLoop fuel ts j (acc ++ [Stmt.expr e])

/-- `Parser.parse(tokens)`. -/
def parseF (fuel : Nat) (ts : List Token) : Option (Except Err (List Stmt)) :=
  match parseProgLoop fuel ts 0 [] with
  | none => none
  | some (.error e) => some (.error e)
  | some (.ok (prog, _)) => some (.ok prog)

/-- A lone `NEWLINE` token, as produced by the lexer for `"\n"`. -/
def newlineTok : Token := ⟨.NEWLINE, .vStr "\n"⟩

/-! ## Evaluator lemmas: the recursion counter

Successful evaluation restores the recursion counter (every increment in
`visit_identifier` is matched by the decrement on the non-error return
path), and a successful run is insensitive to a uniformly higher starting
counter: running with counter `d+1` and succeeding implies running with
counter `d` succeeds with the same stack and scope.  These two facts are
what make quotation running (`[E] \`, which evaluates `E` at counter
`d+1`) agree with direct evaluation of `E` (at counter `d`). -/

/-- The same frame with the recursion counter one higher. -/
def liftD (f : Frame) : Frame := {f with depth := f.depth + 1}

/-- An evaluation function that restores the recursion counter on
    success. -/
def DepthInvD (dp : DeepFn) : Prop :=
  ∀ anc f e g, dp anc f e = some (g, none) → g.depth = f.depth

/-- `DepthInvD` lifted to the optional deeper-evaluator argument. -/
def OptDepthInv (d : Option DeepFn) : Prop :=
  ∀ dp, d = some dp → DepthInvD dp

/-- An evaluation function whose successful runs are insensitive to a
    uniformly higher starting counter. -/
def ShiftD (dp : DeepFn) : Prop :=
  ∀ anc f e g, dp anc (liftD f) e = some (g, none) →
    dp anc f e = some (⟨g.stack, g.scope, f.depth⟩, none)

/-- `ShiftD` lifted to the optional deeper-evaluator argument. -/
def OptShift (d : Option DeepFn) : Prop :=
  ∀ dp, d = some dp → ShiftD dp

/-! ## The identifier resolution order, as the spec states it

`resolutionOrderSpec` is written from the spec's words (§4.4): (1) the
current frame's local scope, (2) the builtin registry, (3) the ancestors'
local scopes from the immediate parent upward, else unknown.  The theorem
for C6 states that `visit_identifier` follows exactly this order, with
local and ancestor hits both evaluated in the original (innermost)
frame. -/

/-- What the spec says identifier resolution should select. -/
inductive Resolution where
  | localHit (e : Expr)
  | builtinHit (entry : BuiltinEntry)
  | ancestorHit (e : Expr)
  | unknown

/-- Spec-side resolution order (from §4.4 of the spec, not from the
    code): local scope first, then builtins, then the ancestor chain. -/
def resolutionOrderSpec (sc : Scope) (anc : List Scope) (name : String) : Resolution :=
  match List.lookup name sc with
  | some e => .localHit e
  | none =>
    match List.lookup name BUILTIN_SCOPE with
    | some entry => .builtinHit entry
    | none =>
      match ancFind anc name with
      | some e => .ancestorHit e
      | none => .unknown

/-- The stored expression of the self-referential binding `x := x`. -/
def selfX : Expr := Expr.cons (Atom.ident "x") Expr.nil

/-- One REPL step of a session: a statement that just references `name`
    in the persistent root frame; the exception is caught by the shell
    and the (possibly mutated) frame persists. -/
def sessionStep (name : String) (f : Frame) : Frame :=
  match evalAtomF 1 [] f (.ident name) with
  | some (g, _) => g
  | none => f

/-- `n` session steps of the same failing statement. -/
def iterSession (name : String) : Nat → Frame → Frame
  | 0, f => f
  | n + 1, f => iterSession name n (sessionStep name f)

/-- Successful results of `retDec` come from successful results of the
    wrapped run, with the counter decremented. -/
theorem retDec_success (r : Res) (g : Frame) :
    retDec r = some (g, none) ↔ ∃ g0, r = some (g0, none) ∧ g = {g0 with depth := g0.depth - 1} := by
  constructor
  · intro h
    match r with
    | none => simp [retDec] at h
    | some (g0, some e) => simp [retDec] at h
    | some (g0, none) =>
      refine ⟨g0, rfl, ?_⟩
      simp [retDec] at h
      exact h.symm
  · rintro ⟨g0, rfl, rfl⟩
    simp [retDec]

/-- A successful builtin invocation restores the counter (no builtin body
    touches it; `run_quot` delegates to an evaluator that restores it). -/
theorem applyBuiltinGo_depth (dp : DeepFn) (hdp : DepthInvD dp) (anc : List Scope)
    (f : Frame) (entry : BuiltinEntry) (g : Frame)
    (h : applyBuiltinGo dp anc f entry = some (g, none)) : g.depth = f.depth := by
  rcases entry with ⟨ar, op⟩
  unfold applyBuiltinGo at h
  by_cases harr : f.stack.length < ar
  · simp [harr] at h
  · simp only [harr, if_false] at h
    cases op with
    | onStack opf =>
      simp at h
      obtain ⟨h2, h3⟩ := h
      subst h2
      rfl
    | runQuot =>
      rcases h1 : popTop f.stack with _ | ⟨st1, v⟩
      · rw [h1] at h; simp at h
      · rw [h1] at h
        match v with
        | .quot e => exact hdp anc {f with stack := st1} e g h
        | .int n => simp at h
        | .float q => simp at h
        | .str s => simp at h
        | .seq l => simp at h

mutual
/-- A successful expression evaluation restores the recursion counter. -/
theorem goExpr_depthInv (d : Option DeepFn) (hd : OptDepthInv d) (e : Expr) :
    ∀ anc f g, goExpr d anc f e = some (g, none) → g.depth = f.depth := by
  intro anc f g h
  match e with
  | .nil =>
    simp [goExpr] at h
    rw [← h]
  | .cons a rest =>
    rw [goExpr] at h
    rcases h1 : goAtom d anc f a with _ | ⟨g1, _ | er⟩
    · rw [h1] at h; simp at h
    · rw [h1] at h
      exact (goExpr_depthInv d hd rest anc g1 g h).trans (goAtom_depthInv d hd a anc f g1 h1)
    · rw [h1] at h; simp at h

/-- A successful atom evaluation restores the recursion counter. -/
theorem goAtom_depthInv (d : Option DeepFn) (hd : OptDepthInv d) (a : Atom) :
    ∀ anc f g, goAtom d anc f a = some (g, none) → g.depth = f.depth := by
  intro anc f g h
  match a with
  | .lit l =>
    simp [goAtom] at h
    rw [← h]
  | .quot e =>
    simp [goAtom] at h
    rw [← h]
  | .list e =>
    rw [goAtom] at h
    rcases h1 : goExpr d (f.scope :: anc) ⟨[], [], 0⟩ e with _ | ⟨c, _ | er⟩
    · rw [h1] at h; simp at h
    · rw [h1] at h
      simp at h
      rw [← h]
    · rw [h1] at h; simp at h
  | .ident name =>
    simp only [goAtom] at h
    match d with
    | none => simp at h
    | some dp =>
      have hdp : DepthInvD dp := hd dp rfl
      by_cases hguard : maxRecursionDepth ≤ f.depth
      · simp [hguard] at h
      · simp only [hguard, if_false] at h
        rcases h1 : List.lookup name f.scope with _ | e
        · rw [h1] at h
          rcases h2 : List.lookup name BUILTIN_SCOPE with _ | entry
          · rw [h2] at h
            rcases h3 : ancFind anc name with _ | e
            · rw [h3] at h; simp at h
            · rw [h3] at h
              obtain ⟨g0, hr, hg⟩ := (retDec_success _ _).mp h
              have := hdp anc {f with depth := f.depth + 1} e g0 hr
              rw [hg]
              simp [this]
          · rw [h2] at h
            obtain ⟨g0, hr, hg⟩ := (retDec_success _ _).mp h
            have := applyBuiltinGo_depth dp hdp anc {f with depth := f.depth + 1} entry g0 hr
            rw [hg]
            simp [this]
        · rw [h1] at h
          obtain ⟨g0, hr, hg⟩ := (retDec_success _ _).mp h
          have := hdp anc {f with depth := f.depth + 1} e g0 hr
          rw [hg]
          simp [this]
end

/-- Builtin invocation is insensitive to a uniformly higher counter. -/
theorem applyBuiltinGo_shift (dp : DeepFn) (hs : ShiftD dp) (anc : List Scope)
    (f : Frame) (entry : BuiltinEntry) (g : Frame)
    (h : applyBuiltinGo dp anc (liftD f) entry = some (g, none)) :
    applyBuiltinGo dp anc f entry = some (⟨g.stack, g.scope, f.depth⟩, none) := by
  rcases entry with ⟨ar, op⟩
  unfold applyBuiltinGo at h ⊢
  simp only [liftD] at h
  by_cases harr : f.stack.length < ar
  · simp [harr] at h
  · simp only [harr, if_false] at h ⊢
    cases op with
    | onStack opf =>
      simp at h ⊢
      obtain ⟨h2, h3⟩ := h
      subst h2
      simp [h3]
    | runQuot =>
      rcases h1 : popTop f.stack with _ | ⟨st1, v⟩
      · rw [h1] at h; simp at h
      · rw [h1] at h
        simp only [h1]
        match v with
        | .quot e =>
          exact hs anc {f with stack := st1} e g h
        | .int n => simp at h
        | .float q => simp at h
        | .str s => simp at h
        | .seq l => simp at h

mutual
/-- A successful expression run from counter `d+1` also succeeds from
    counter `d`, with the same final stack and scope. -/
theorem goExpr_shift (d : Option DeepFn) (hdI : OptDepthInv d) (hdS : OptShift d) (e : Expr) :
    ∀ anc f g, goExpr d anc (liftD f) e = some (g, none) →
      goExpr d anc f e = some (⟨g.stack, g.scope, f.depth⟩, none) := by
  intro anc f g h
  obtain ⟨fst, fsc, fd⟩ := f
  match e with
  | .nil =>
    simp [goExpr, liftD] at h
    simp [goExpr, ← h]
  | .cons a rest =>
    rw [goExpr] at h ⊢
    rcases h1 : goAtom d anc (liftD ⟨fst, fsc, fd⟩) a with _ | ⟨⟨s1, sc1, d1⟩, _ | er⟩
    · rw [h1] at h; simp at h
    · rw [h1] at h
      have hdep : d1 = fd + 1 := goAtom_depthInv d hdI a anc (liftD ⟨fst, fsc, fd⟩) ⟨s1, sc1, d1⟩ h1
      subst hdep
      have ha : goAtom d anc ⟨fst, fsc, fd⟩ a = some (⟨s1, sc1, fd⟩, none) :=
        goAtom_shift d hdI hdS a anc ⟨fst, fsc, fd⟩ ⟨s1, sc1, fd + 1⟩ h1
      rw [ha]
      exact goExpr_shift d hdI hdS rest anc ⟨s1, sc1, fd⟩ g h
    · rw [h1] at h; simp at h

/-- A successful atom run from counter `d+1` also succeeds from counter
    `d`, with the same final stack and scope. -/
theorem goAtom_shift (d : Option DeepFn) (hdI : OptDepthInv d) (hdS : OptShift d) (a : Atom) :
    ∀ anc f g, goAtom d anc (liftD f) a = some (g, none) →
      goAtom d anc f a = some (⟨g.stack, g.scope, f.depth⟩, none) := by
  intro anc f g h
  obtain ⟨fst, fsc, fd⟩ := f
  match a with
  | .lit l =>
    simp [goAtom, liftD] at h
    simp [goAtom, ← h]
  | .quot e =>
    simp [goAtom, liftD] at h
    simp [goAtom, ← h]
  | .list e =>
    have hl : liftD ⟨fst, fsc, fd⟩ = (⟨fst, fsc, fd + 1⟩ : Frame) := rfl
    rw [hl] at h
    simp only [goAtom] at h ⊢
    rcases h1 : goExpr d (fsc :: anc) ⟨[], [], 0⟩ e with _ | ⟨c, _ | er⟩
    · simp only [h1] at h; simp at h
    · simp only [h1] at h
      simp at h ⊢
      simp [← h]
    · simp only [h1] at h; simp at h
  | .ident name =>
    have hl : liftD ⟨fst, fsc, fd⟩ = (⟨fst, fsc, fd + 1⟩ : Frame) := rfl
    rw [hl] at h
    simp only [goAtom] at h ⊢
    match d with
    | none => simp at h
    | some dp =>
      have hdp : DepthInvD dp := hdI dp rfl
      have hsp : ShiftD dp := hdS dp rfl
      by_cases hguard : maxRecursionDepth ≤ fd + 1
      · simp [hguard] at h
      · have hguard2 : ¬ maxRecursionDepth ≤ fd := by omega
        simp only [hguard, hguard2, if_false] at h ⊢
        rcases h1 : List.lookup name fsc with _ | e
        · simp only [h1] at h
          rcases h2 : List.lookup name BUILTIN_SCOPE with _ | entry
          · simp only [h2] at h
            rcases h3 : ancFind anc name with _ | e
            · simp only [h3] at h
              simp at h
            · simp only [h3] at h
              obtain ⟨g0, hr, hg⟩ := (retDec_success _ _).mp h
              have hcall : dp anc (⟨fst, fsc, fd + 1⟩ : Frame) e =
                  some (⟨g0.stack, g0.scope, fd + 1⟩, none) :=
                hsp anc ⟨fst, fsc, fd + 1⟩ e g0 hr
              have hdep : g0.depth = fd + 1 + 1 := hdp anc ⟨fst, fsc, fd + 1 + 1⟩ e g0 hr
              have hfin : retDec (dp anc (⟨fst, fsc, fd + 1⟩ : Frame) e) =
                  some (⟨g.stack, g.scope, fd⟩, none) := by
                rw [hcall, hg]
                simp [retDec, hdep]
              exact hfin
          · simp only [h2] at h
            obtain ⟨g0, hr, hg⟩ := (retDec_success _ _).mp h
            have hcall : applyBuiltinGo dp anc (⟨fst, fsc, fd + 1⟩ : Frame) entry =
                some (⟨g0.stack, g0.scope, fd + 1⟩, none) :=
              applyBuiltinGo_shift dp hsp anc ⟨fst, fsc, fd + 1⟩ entry g0 hr
            have hdep : g0.depth = fd + 1 + 1 :=
              applyBuiltinGo_depth dp hdp anc ⟨fst, fsc, fd + 1 + 1⟩ entry g0 hr
            have hfin : retDec (applyBuiltinGo dp anc (⟨fst, fsc, fd + 1⟩ : Frame) entry) =
                some (⟨g.stack, g.scope, fd⟩, none) := by
              rw [hcall, hg]
              simp [retDec, hdep]
            exact hfin
        · simp only [h1] at h
          obtain ⟨g0, hr, hg⟩ := (retDec_success _ _).mp h
          have hcall : dp anc (⟨fst, fsc, fd + 1⟩ : Frame) e =
              some (⟨g0.stack, g0.scope, fd + 1⟩, none) :=
            hsp anc ⟨fst, fsc, fd + 1⟩ e g0 hr
          have hdep : g0.depth = fd + 1 + 1 := hdp anc ⟨fst, fsc, fd + 1 + 1⟩ e g0 hr
          have hfin : retDec (dp anc (⟨fst, fsc, fd + 1⟩ : Frame) e) =
              some (⟨g.stack, g.scope, fd⟩, none) := by
            rw [hcall, hg]
            simp [retDec, hdep]
          exact hfin
end

/-- `OptDepthInv` holds vacuously for the spent-fuel evaluator. -/
theorem optDepthInv_none : OptDepthInv none := by
  intro dp h
  exact Option.noConfusion h

/-- `OptShift` holds vacuously for the spent-fuel evaluator. -/
theorem optShift_none : OptShift none := by
  intro dp h
  exact Option.noConfusion h

/-- At every fuel level, successful evaluation restores the counter. -/
theorem evalExprF_depthInv : ∀ n, DepthInvD (evalExprF n) := by
  intro n
  induction n with
  | zero =>
    intro anc f e g h
    exact goExpr_depthInv none optDepthInv_none e anc f g h
  | succ n ih =>
    intro anc f e g h
    have hopt : OptDepthInv (some (evalExprF n)) := by
      intro dp hdp
      cases hdp
      exact ih
    exact goExpr_depthInv (some (evalExprF n)) hopt e anc f g h

/-- At every fuel level, a successful run from counter `d+1` also
    succeeds from counter `d` with the same final stack and scope. -/
theorem evalExprF_shift : ∀ n, ShiftD (evalExprF n) := by
  intro n
  induction n with
  | zero =>
    intro anc f e g h
    exact goExpr_shift none optDepthInv_none optShift_none e anc f g h
  | succ n ih =>
    intro anc f e g h
    have hoptI : OptDepthInv (some (evalExprF n)) := by
      intro dp hdp
      cases hdp
      exact evalExprF_depthInv n
    have hoptS : OptShift (some (evalExprF n)) := by
      intro dp hdp
      cases hdp
      exact ih
    exact goExpr_shift (some (evalExprF n)) hoptI hoptS e anc f g h


/-! ## Claim theorems -/

/-- Popping from a stack with top `v` yields `v` and the rest. -/
theorem popTop_concat (st : List Value) (v : Value) : popTop (st ++ [v]) = some (st, v) := by
  simp [popTop]

/-- The statement loop never terminates on a lone `Newline` token: the
    expression parser stops immediately without consuming it, an empty
    statement is appended, and the loop comes back to the same token. -/
theorem parseProgLoop_newline_diverges :
    ∀ fuel acc, parseProgLoop fuel [newlineTok] 0 acc = none := by
  intro fuel
  induction fuel with
  | zero => intro acc; rfl
  | succ n ih =>
    intro acc
    cases n with
    | zero => rfl
    | succ m =>
      have h1 : parseExprP (m + 1) [newlineTok] 0 = some (.ok (Expr.nil, 0)) := rfl
      have h2 : parseProgLoop (m + 1 + 1) [newlineTok] 0 acc =
          parseProgLoop (m + 1) [newlineTok] 0 (acc ++ [Stmt.expr Expr.nil]) := by
        rw [parseProgLoop, h1]
        simp [isDeclaration]
      rw [h2]
      exact ih (acc ++ [Stmt.expr Expr.nil])

/-- C1: the claim states `parse` is total — returning a `Program` or a
    `ParseError` on every finite token sequence, in particular on a
    `Newline` token at a statement boundary.  The code refutes this: on
    the token sequence `[Newline]` the parser loops forever (for every
    fuel bound the embedded parser fails to terminate), because
    `_parse_program` loops while not at end of input and
    `_parse_expression` returns an empty expression without ever
    consuming the `Newline`. -/
theorem parse_newline_never_terminates :
    ∀ fuel, parseF fuel [newlineTok] = none := by
  intro fuel
  simp [parseF, parseProgLoop_newline_diverges fuel []]

/-- C3: the claim states `tokenize` is total — tokens or `LexicalError`
    on every input, including the empty string.  The code refutes this:
    on `""` the initial `self.current_char = self.source[self.pos]`
    raises a native `IndexError` (not a `LexicalError`), and on `" "`
    the space-skipping loop runs off the end and the membership test
    `self.current_char in "([{"` raises a native `TypeError`. -/
theorem tokenize_not_total :
    (∀ fuel, tokenize fuel "" = some (.error (.pyIndexError "string index out of range"))) ∧
    (∀ fuel, tokenize (fuel + 2) " " =
      some (.error (.pyTypeError "in <string> requires string as left operand, not NoneType"))) :=
  ⟨fun _ => rfl, fun _ => rfl⟩

/-- C4 counterexample: `6 3 /` does not leave the integer `2` on the
    stack — Python `/` is true division and pushes the float `2.0`
    (modelled as the canonical rational `2/1`), which is a different
    runtime value than the integer `2`. -/
theorem div_result_is_float_counterexample :
    evaluateF 1 [Stmt.expr (exprOfList [.lit (.i 6), .lit (.i 3), .ident "/"])] =
      some (⟨[Value.float ⟨2, 1⟩], [], 0⟩, none) ∧
    (Value.float ⟨2, 1⟩ : Value) ≠ Value.int 2 :=
  ⟨rfl, fun h => Value.noConfusion h⟩

/-- C4 amended: `3 4 +` leaves `[7]` and `10 3 -` leaves `[7]` as
    claimed, but `6 3 /` leaves the float `[2.0]` (true division always
    produces a float), not the integer `[2]`. -/
theorem arith_binop_examples :
    evaluateF 1 [Stmt.expr (exprOfList [.lit (.i 3), .lit (.i 4), .ident "+"])] =
      some (⟨[Value.int 7], [], 0⟩, none) ∧
    evaluateF 1 [Stmt.expr (exprOfList [.lit (.i 10), .lit (.i 3), .ident "-"])] =
      some (⟨[Value.int 7], [], 0⟩, none) ∧
    evaluateF 1 [Stmt.expr (exprOfList [.lit (.i 6), .lit (.i 3), .ident "/"])] =
      some (⟨[Value.float ⟨2, 1⟩], [], 0⟩, none) :=
  ⟨rfl, rfl, rfl⟩

/-- C5: every registry entry of arity `N`, dispatched on a frame whose
    stack holds `M < N` values (the name not shadowed by the local scope,
    counter below the ceiling), fails with `RuntimeError: Expected N
    items on stack but got M` and leaves the stack exactly as it was;
    only the recursion counter is incremented (the decrement is on the
    non-error path). -/
theorem builtin_arity_underflow (name : String) (entry : BuiltinEntry)
    (hb : List.lookup name BUILTIN_SCOPE = some entry)
    (fuel : Nat) (anc : List Scope) (f : Frame)
    (hsc : List.lookup name f.scope = none)
    (hd : f.depth < maxRecursionDepth)
    (hlen : f.stack.length < entry.arity) :
    evalAtomF (fuel + 1) anc f (.ident name) =
      some ({f with depth := f.depth + 1},
        some (.rt ("Expected " ++ toString entry.arity ++ " items on stack but got " ++
          toString f.stack.length))) := by
  have hg : ¬ maxRecursionDepth ≤ f.depth := by omega
  simp only [evalAtomF, goAtom, hg, if_false, hsc, hb]
  have happ : applyBuiltinGo (evalExprF fuel) anc {f with depth := f.depth + 1} entry =
      some ({f with depth := f.depth + 1},
        some (.rt ("Expected " ++ toString entry.arity ++ " items on stack but got " ++
          toString f.stack.length))) := by
    unfold applyBuiltinGo
    simp [hlen]
  rw [happ]
  simp [retDec]

/-- C5 witness: `+` (arity 2) on an empty stack. -/
theorem builtin_arity_underflow_witness :
    List.lookup "+" BUILTIN_SCOPE = some ⟨2, .onStack stack_plus⟩ ∧
    evalAtomF 1 [] ⟨[], [], 0⟩ (.ident "+") =
      some (⟨[], [], 1⟩, some (.rt "Expected 2 items on stack but got 0")) :=
  ⟨rfl, builtin_arity_underflow "+" ⟨2, .onStack stack_plus⟩ rfl 0 [] ⟨[], [], 0⟩ rfl
    (by decide) (by decide)⟩

/-- C8: evaluating a `ListBlock` runs the block's expression in a child
    frame (fresh empty stack, empty scope, counter 0, the current frame's
    scope prepended to the ancestor chain) and pushes the child's final
    stack as one `Sequence` value onto the current stack; `{1 2 +}`
    evaluated alone pushes the single value `[3]`. -/
theorem listblock_isolated_child_frame :
    (∀ fuel anc (f : Frame) (e : Expr),
      evalAtomF fuel anc f (.list e) =
        match evalExprF fuel (f.scope :: anc) ⟨[], [], 0⟩ e with
        | none => none
        | some (_, some er) => some (f, some er)
        | some (c, none) => some ({f with stack := f.stack ++ [Value.seq c.stack]}, none)) ∧
    evalAtomF 1 [] ⟨[], [], 0⟩ (.list (exprOfList [.lit (.i 1), .lit (.i 2), .ident "+"])) =
      some (⟨[Value.seq [Value.int 3]], [], 0⟩, none) := by
  constructor
  · intro fuel anc f e
    cases fuel with
    | zero => rfl
    | succ n => rfl
  · rfl

/-- C2 counterexample: invoking `\` with a non-Quotation on top fails
    with a native `TypeError` (`raise TypeError(...)` in `run_quot`), not
    with the `RunTimeError` kind the claim asserts — so not every
    evaluation-stage failure is a `RuntimeError`. -/
theorem runquot_error_kind_counterexample :
    evalAtomF 1 [] ⟨[Value.int 1], [], 0⟩ (.ident "\\") =
      some (⟨[], [], 1⟩, some (.pyTypeError "Expected quotation but got int")) ∧
    Err.isRt (.pyTypeError "Expected quotation but got int") = false :=
  ⟨rfl, rfl⟩

/-- C2 amended: for every frame whose top value is not a Quotation (and
    `\` not shadowed, counter below the ceiling), invoking `\` fails with
    a native `TypeError` — not a `RuntimeError` — and the offending value
    has already been popped when the error escapes. -/
theorem runquot_nonquot_typeerror (fuel : Nat) (anc : List Scope) (st : List Value)
    (sc : Scope) (d : Nat) (v : Value)
    (hv : isQuotVal v = false)
    (hsc : List.lookup "\\" sc = none)
    (hd : d < maxRecursionDepth) :
    evalAtomF (fuel + 1) anc ⟨st ++ [v], sc, d⟩ (.ident "\\") =
      some (⟨st, sc, d + 1⟩,
        some (.pyTypeError ("Expected quotation but got " ++ pyTypeName v))) := by
  have hg : ¬ maxRecursionDepth ≤ d := by omega
  have hb : List.lookup "\\" BUILTIN_SCOPE = some ⟨1, .runQuot⟩ := rfl
  simp only [evalAtomF, goAtom, hg, if_false, hsc, hb]
  have happ : applyBuiltinGo (evalExprF fuel) anc ⟨st ++ [v], sc, d + 1⟩
      (⟨1, .runQuot⟩ : BuiltinEntry) =
      some (⟨st, sc, d + 1⟩,
        some (.pyTypeError ("Expected quotation but got " ++ pyTypeName v))) := by
    unfold applyBuiltinGo
    have hlen : ¬ (st ++ [v]).length < 1 := by simp
    simp only [hlen, if_false]
    rw [show popTop (⟨st ++ [v], sc, d + 1⟩ : Frame).stack = some (st, v) from popTop_concat st v]
    match v, hv with
    | .int n, _ => rfl
    | .float q, _ => rfl
    | .str s, _ => rfl
    | .seq l, _ => rfl
  rw [happ]
  simp [retDec]

/-- C2 witness: the amended claim at the concrete frame `[1]`. -/
theorem runquot_nonquot_typeerror_witness :
    isQuotVal (Value.int 1) = false ∧ (0 : Nat) < maxRecursionDepth ∧
    evalAtomF 1 [] ⟨[Value.int 1], [], 0⟩ (.ident "\\") =
      some (⟨[], [], 1⟩,
        some (.pyTypeError ("Expected quotation but got " ++ pyTypeName (Value.int 1)))) :=
  ⟨rfl, by decide, runquot_nonquot_typeerror 0 [] [] [] 0 (Value.int 1) rfl rfl (by decide)⟩

/-- C6: identifier resolution follows exactly the spec's order
    (`resolutionOrderSpec`): (1) the current frame's local scope, the
    stored expression evaluated in the current frame; (2) the builtin
    registry, invoked against the current frame; (3) the ancestors' local
    scopes from the immediate parent upward, the found expression again
    evaluated in the original innermost frame; otherwise `RuntimeError:
    Unknown identifier`.  In each hit the counter is incremented first
    and decremented only on the non-error return. -/
theorem identifier_resolution_order (fuel : Nat) (anc : List Scope) (f : Frame)
    (name : String) (hd : f.depth < maxRecursionDepth) :
    evalAtomF (fuel + 1) anc f (.ident name) =
      match resolutionOrderSpec f.scope anc name with
      | .localHit e => retDec (evalExprF fuel anc {f with depth := f.depth + 1} e)
      | .builtinHit entry =>
          retDec (applyBuiltinGo (evalExprF fuel) anc {f with depth := f.depth + 1} entry)
      | .ancestorHit e => retDec (evalExprF fuel anc {f with depth := f.depth + 1} e)
      | .unknown =>
          some ({f with depth := f.depth + 1}, some (.rt ("Unknown identifier " ++ name))) := by
  have hg : ¬ maxRecursionDepth ≤ f.depth := by omega
  simp only [evalAtomF, goAtom, resolutionOrderSpec, hg, if_false]
  rcases h1 : List.lookup name f.scope with _ | e
  · rcases h2 : List.lookup name BUILTIN_SCOPE with _ | entry
    · rcases h3 : ancFind anc name with _ | e
      · rfl
      · rfl
    · rfl
  · rfl

/-- C6 witness: a name bound only in an ancestor scope resolves through
    step (3) and is evaluated in the innermost frame. -/
theorem identifier_resolution_order_witness :
    (0 : Nat) < maxRecursionDepth ∧
    evalAtomF 1 [[("y", exprOfList [.lit (.i 5)])]] ⟨[], [], 0⟩ (.ident "y") =
      match resolutionOrderSpec [] [[("y", exprOfList [.lit (.i 5)])]] "y" with
      | .localHit e => retDec (evalExprF 0 [[("y", exprOfList [.lit (.i 5)])]] ⟨[], [], 1⟩ e)
      | .builtinHit entry =>
          retDec (applyBuiltinGo (evalExprF 0) [[("y", exprOfList [.lit (.i 5)])]] ⟨[], [], 1⟩ entry)
      | .ancestorHit e => retDec (evalExprF 0 [[("y", exprOfList [.lit (.i 5)])]] ⟨[], [], 1⟩ e)
      | .unknown => some (⟨[], [], 1⟩, some (.rt "Unknown identifier y")) :=
  ⟨by decide, identifier_resolution_order 0 [[("y", exprOfList [.lit (.i 5)])]] ⟨[], [], 0⟩ "y"
    (by decide)⟩


/-- Resolving `x` under the binding `x := x` from counter `d ≤ 100`
    reaches the ceiling and fails with the depth error, resetting the
    counter to zero, whenever the fuel covers the `101 - d` resolutions
    involved. -/
theorem selfref_hits_ceiling (n : Nat) :
    ∀ d (st : List Value) (anc : List Scope), d ≤ maxRecursionDepth →
      maxRecursionDepth + 1 - d ≤ n →
      evalAtomF n anc ⟨st, [("x", selfX)], d⟩ (.ident "x") =
        some (⟨st, [("x", selfX)], 0⟩, some (.rt "Maximum recursion depth reached")) := by
  induction n with
  | zero =>
    intro d st anc hd hn
    omega
  | succ n ih =>
    intro d st anc hd hn
    by_cases hceil : maxRecursionDepth ≤ d
    · have hdm : d = maxRecursionDepth := le_antisymm hd hceil
      subst hdm
      simp [evalAtomF, goAtom]
    · have hlook : List.lookup "x" ([("x", selfX)] : Scope) = some selfX := rfl
      simp only [evalAtomF, goAtom, hceil, if_false, hlook]
      have hinner : evalExprF n anc ⟨st, [("x", selfX)], d + 1⟩ selfX =
          some (⟨st, [("x", selfX)], 0⟩, some (.rt "Maximum recursion depth reached")) := by
        cases n with
        | zero => omega
        | succ m =>
          have hat : goAtom (some (evalExprF m)) anc
              ⟨st, [("x", Expr.cons (Atom.ident "x") Expr.nil)], d + 1⟩ (Atom.ident "x") =
              some (⟨st, [("x", Expr.cons (Atom.ident "x") Expr.nil)], 0⟩,
                some (.rt "Maximum recursion depth reached")) :=
            ih (d + 1) st anc (by omega) (by omega)
          rw [show evalExprF (m + 1) = goExpr (some (evalExprF m)) from rfl,
              show (selfX : Expr) = Expr.cons (Atom.ident "x") Expr.nil from rfl, goExpr, hat]
      rw [hinner]
      simp [retDec]

/-- Under the binding `x := x`, fuel covering at most 100 identifier
    resolutions is exhausted before the ceiling error can surface: the
    failure really takes the full 100 nested resolutions below the
    initial reference. -/
theorem selfref_needs_hundred (n : Nat) :
    ∀ d (st : List Value) (anc : List Scope), n + d ≤ maxRecursionDepth →
      evalAtomF n anc ⟨st, [("x", selfX)], d⟩ (.ident "x") = none := by
  induction n with
  | zero => intro d st anc _; rfl
  | succ n ih =>
    intro d st anc hnd
    have hceil : ¬ maxRecursionDepth ≤ d := by omega
    have hlook : List.lookup "x" ([("x", selfX)] : Scope) = some selfX := rfl
    simp only [evalAtomF, goAtom, hceil, if_false, hlook]
    have hinner : evalExprF n anc ⟨st, [("x", selfX)], d + 1⟩ selfX = none := by
      cases n with
      | zero => rfl
      | succ m =>
        have hat : goAtom (some (evalExprF m)) anc
            ⟨st, [("x", Expr.cons (Atom.ident "x") Expr.nil)], d + 1⟩ (Atom.ident "x") =
            none := ih (d + 1) st anc (by omega)
        rw [show evalExprF (m + 1) = goExpr (some (evalExprF m)) from rfl,
            show (selfX : Expr) = Expr.cons (Atom.ident "x") Expr.nil from rfl, goExpr, hat]
    rw [hinner]
    simp [retDec]

/-- C7: after `x := x` (which stores the unevaluated expression `x` in
    the scope), referencing `x` fails with `RuntimeError: Maximum
    recursion depth reached` for every fuel bound of at least 101
    identifier resolutions — so the run terminates with the guard error,
    not a native stack overflow — leaving the frame's recursion counter
    reset to zero and the stack and scope untouched; with fuel for only
    100 resolutions the error cannot yet surface, pinning the failure at
    exactly 100 nested resolutions below the initial reference. -/
theorem selfref_binding_depth_error :
    (evalStmtsF 1 [] ⟨[], [], 0⟩ [Stmt.decl "x" selfX] = some (⟨[], [("x", selfX)], 0⟩, none)) ∧
    (∀ k (st : List Value) (anc : List Scope),
      evalAtomF (maxRecursionDepth + 1 + k) anc ⟨st, [("x", selfX)], 0⟩ (.ident "x") =
        some (⟨st, [("x", selfX)], 0⟩, some (.rt "Maximum recursion depth reached"))) ∧
    (∀ (st : List Value) (anc : List Scope),
      evalAtomF maxRecursionDepth anc ⟨st, [("x", selfX)], 0⟩ (.ident "x") = none) := by
  refine ⟨rfl, ?_, ?_⟩
  · intro k st anc
    exact selfref_hits_ceiling (maxRecursionDepth + 1 + k) 0 st anc (by omega) (by omega)
  · intro st anc
    exact selfref_needs_hundred maxRecursionDepth 0 st anc (by omega)

/-- C9 amended: deferred and immediate evaluation agree when forced,
    provided `\` is not shadowed in the frame's local scope and the
    recursion guard does not interfere: whenever evaluating `E` with the
    counter one higher succeeds (the guard consumed by `\` never trips),
    `[E] \` and `E` produce the same final frame — same stack, same
    scope, counter restored. -/
theorem quot_run_equiv (fuel : Nat) (anc : List Scope) (f g : Frame) (e : Expr)
    (hsc : List.lookup "\\" f.scope = none)
    (hd : f.depth < maxRecursionDepth)
    (hrun : evalExprF fuel anc (liftD f) e = some (g, none)) :
    evalExprF (fuel + 1) anc f (Expr.cons (.quot e) (Expr.cons (.ident "\\") Expr.nil)) =
      some (⟨g.stack, g.scope, f.depth⟩, none) ∧
    evalExprF fuel anc f e = some (⟨g.stack, g.scope, f.depth⟩, none) := by
  refine ⟨?_, evalExprF_shift fuel anc f e g hrun⟩
  have hdep0 : g.depth = (liftD f).depth := evalExprF_depthInv fuel anc (liftD f) e g hrun
  obtain ⟨fst, fsc, fd⟩ := f
  obtain ⟨gst, gsc, gd⟩ := g
  have hdep : gd = fd + 1 := hdep0
  subst hdep
  have hsc2 : List.lookup "\\" fsc = none := hsc
  have hg100 : ¬ maxRecursionDepth ≤ fd := by
    have hd2 : fd < maxRecursionDepth := hd
    omega
  have hb : List.lookup "\\" BUILTIN_SCOPE = some ⟨1, .runQuot⟩ := rfl
  rw [show evalExprF (fuel + 1) = goExpr (some (evalExprF fuel)) from rfl]
  rw [goExpr]
  rw [show goAtom (some (evalExprF fuel)) anc ⟨fst, fsc, fd⟩ (Atom.quot e) =
      some (⟨fst ++ [Value.quot e], fsc, fd⟩, none) from rfl]
  show goExpr (some (evalExprF fuel)) anc ⟨fst ++ [Value.quot e], fsc, fd⟩
      (Expr.cons (Atom.ident "\\") Expr.nil) = some (⟨gst, gsc, fd⟩, none)
  have hident : goAtom (some (evalExprF fuel)) anc ⟨fst ++ [Value.quot e], fsc, fd⟩
      (Atom.ident "\\") = some (⟨gst, gsc, fd⟩, none) := by
    simp only [goAtom, hg100, if_false, hsc2, hb]
    have happ : applyBuiltinGo (evalExprF fuel) anc ⟨fst ++ [Value.quot e], fsc, fd + 1⟩
        (⟨1, .runQuot⟩ : BuiltinEntry) = some (⟨gst, gsc, fd + 1⟩, none) := by
      unfold applyBuiltinGo
      have hlen : ¬ (fst ++ [Value.quot e]).length < 1 := by simp
      simp only [hlen, if_false]
      rw [show popTop (⟨fst ++ [Value.quot e], fsc, fd + 1⟩ : Frame).stack =
          some (fst, Value.quot e) from popTop_concat fst (Value.quot e)]
      exact hrun
    rw [happ]
    simp [retDec]
  rw [goExpr, hident]
  rfl

/-- C9 witness: `[1 2 +] \` yields stack `[3]`, identical to `1 2 +`. -/
theorem quot_run_equiv_witness :
    List.lookup "\\" ([] : Scope) = none ∧ (0 : Nat) < maxRecursionDepth ∧
    evalExprF 1 [] (liftD ⟨[], [], 0⟩) (exprOfList [.lit (.i 1), .lit (.i 2), .ident "+"]) =
      some (⟨[Value.int 3], [], 1⟩, none) ∧
    evalExprF 2 [] ⟨[], [], 0⟩
        (Expr.cons (.quot (exprOfList [.lit (.i 1), .lit (.i 2), .ident "+"]))
          (Expr.cons (.ident "\\") Expr.nil)) =
      some (⟨[Value.int 3], [], 0⟩, none) ∧
    evalExprF 1 [] ⟨[], [], 0⟩ (exprOfList [.lit (.i 1), .lit (.i 2), .ident "+"]) =
      some (⟨[Value.int 3], [], 0⟩, none) :=
  ⟨rfl, by decide, rfl,
    quot_run_equiv 1 [] ⟨[], [], 0⟩ ⟨[Value.int 3], [], 1⟩
      (exprOfList [.lit (.i 1), .lit (.i 2), .ident "+"]) rfl (by decide) rfl⟩

/-- C9 counterexample: the claim as stated — `[E] \` and `E` agree in
    *every* frame — is false.  With the counter at the ceiling, `1 2`
    leaves `[1, 2]` while `[1 2] \` aborts with the depth error leaving
    the quotation on the stack; and with `\` shadowed in the local scope,
    `[1 2] \` pushes the quotation and the shadowing binding's value
    instead of running the quotation. -/
theorem quot_run_equiv_counterexample :
    evalExprF 5 [] ⟨[], [], maxRecursionDepth⟩ (exprOfList [.lit (.i 1), .lit (.i 2)]) =
      some (⟨[Value.int 1, Value.int 2], [], maxRecursionDepth⟩, none) ∧
    evalExprF 5 [] ⟨[], [], maxRecursionDepth⟩
        (exprOfList [.quot (exprOfList [.lit (.i 1), .lit (.i 2)]), .ident "\\"]) =
      some (⟨[Value.quot (exprOfList [.lit (.i 1), .lit (.i 2)])], [], 0⟩,
        some (.rt "Maximum recursion depth reached")) ∧
    ([Value.int 1, Value.int 2] ≠ [Value.quot (exprOfList [.lit (.i 1), .lit (.i 2)])]) ∧
    evalExprF 5 [] ⟨[], [("\\", exprOfList [.lit (.i 5)])], 0⟩
        (exprOfList [.quot (exprOfList [.lit (.i 1), .lit (.i 2)]), .ident "\\"]) =
      some (⟨[Value.quot (exprOfList [.lit (.i 1), .lit (.i 2)]), Value.int 5],
        [("\\", exprOfList [.lit (.i 5)])], 0⟩, none) := by
  refine ⟨rfl, rfl, ?_, rfl⟩
  intro h
  exact Value.noConfusion (List.cons.inj h).1


/-- C10 amended: a failed unknown-identifier lookup leaves the stack and
    scope unchanged and the counter permanently incremented (the
    decrement is only on the success path); and once the counter has
    reached the ceiling, the *next* identifier resolution fails with
    `Maximum recursion depth reached` while *resetting the counter to
    zero* — after which resolution proceeds normally, rather than every
    subsequent resolution failing. -/
theorem unknown_ident_counter_leak (fuel : Nat) (anc : List Scope) (f : Frame)
    (name : String) :
    (List.lookup name f.scope = none → List.lookup name BUILTIN_SCOPE = none →
      ancFind anc name = none → f.depth < maxRecursionDepth →
      evalAtomF (fuel + 1) anc f (.ident name) =
        some ({f with depth := f.depth + 1}, some (.rt ("Unknown identifier " ++ name)))) ∧
    (maxRecursionDepth ≤ f.depth →
      evalAtomF (fuel + 1) anc f (.ident name) =
        some ({f with depth := 0}, some (.rt "Maximum recursion depth reached"))) := by
  constructor
  · intro hsc hb ha hd
    have hg : ¬ maxRecursionDepth ≤ f.depth := by omega
    simp [evalAtomF, goAtom, hg, hsc, hb, ha]
  · intro hceil
    simp [evalAtomF, goAtom, hceil]

/-- C10 witness: a single failed lookup of an unbound name increments
    the counter and leaves everything else unchanged. -/
theorem unknown_ident_counter_leak_witness :
    evalAtomF 1 [] ⟨[], [], 0⟩ (.ident "nosuch") =
      some (⟨[], [], 1⟩, some (.rt "Unknown identifier nosuch")) :=
  (unknown_ident_counter_leak 0 [] ⟨[], [], 0⟩ "nosuch").1 rfl rfl rfl (by decide)

set_option maxRecDepth 100000 in
/-- C10 counterexample: after 100 failed unknown-identifier lookups the
    counter sits at 100 and the next resolution fails with the depth
    error — but that failure *resets* the counter to zero, and the very
    next resolution succeeds normally (here `+` reduces the stack
    `[1, 2]` to `[3]`), refuting the claim that every subsequent
    resolution in the frame keeps failing. -/
theorem unknown_ident_lockout_counterexample :
    iterSession "u" 100 ⟨[Value.int 1, Value.int 2], [], 0⟩ =
      ⟨[Value.int 1, Value.int 2], [], 100⟩ ∧
    evalAtomF 1 [] ⟨[Value.int 1, Value.int 2], [], 100⟩ (.ident "+") =
      some (⟨[Value.int 1, Value.int 2], [], 0⟩, some (.rt "Maximum recursion depth reached")) ∧
    evalAtomF 1 [] ⟨[Value.int 1, Value.int 2], [], 0⟩ (.ident "+") =
      some (⟨[Value.int 3], [], 0⟩, none) :=
  ⟨rfl, rfl, rfl⟩
